import Mathlib

/-!
Verification of the Waydown backend (Express/Mongoose REST API) against its
natural-language specification.  The definitions below are a shallow
embedding of the JavaScript source: Mongo documents become Lean structures,
aggregation pipelines become list transformations, and each route handler
becomes a pure function from the request (and a list-based document store)
to a response value.  External libraries (JWT verification, bcrypt, uuid)
are passed in as function parameters.
-/

namespace Waydown

/-! ## Data model (src/models/Spot.js, src/models/User.js, Post model) -/

/-- Status enum of src/models/Spot.js (`enum: ["pending","approved","rejected"]`);
the Post model uses the same enum. -/
inductive SpotStatus
  | pending
  | approved
  | rejected
deriving DecidableEq, Repr

/-- Comment/review sub-document of src/models/Spot.js (commentSchema).
`rating` is a Mongo Number (modelled as ℚ); the schema requires 1 ≤ rating ≤ 5. -/
structure Comment where
  user : Nat
  username : String
  content : String
  rating : ℚ
  createdAt : Nat
deriving DecidableEq, Repr

/-- Report sub-document of src/models/Spot.js (reportSchema). -/
structure Report where
  reportedBy : Nat
  reason : String
deriving DecidableEq, Repr

/-- Spot document of src/models/Spot.js, restricted to the fields the
verified routes read or write.  `createdAt` is the timestamps-plugin
creation date, as a numeric timestamp. -/
structure Spot where
  name : String
  content : String
  location : List ℚ
  photos : List String
  tags : List String
  bestTimeToVisit : String
  uniqueFacts : String
  submittedBy : Nat
  likedBy : List String
  comments : List Comment
  reports : List Report
  views : Nat
  status : SpotStatus
  averageRating : ℚ
  createdAt : Nat
deriving DecidableEq, Repr

/-- User document of src/models/User.js (JWT revision), restricted to the
fields the verified routes read or write.  `id` models the Mongo `_id`. -/
structure User where
  id : Nat
  email : String
  password : String
  username : String
  isAdmin : Bool
  profilePic : String
  bio : String
  followers : List Nat
  following : List Nat
  interests : List String
  refreshTokens : List String
  notificationsEnabled : Bool
  lastActive : Nat
  updatedAt : Nat
deriving DecidableEq, Repr

/-- A `user.save()` of src/models/User.js: the custom pre-save hook stamps
`lastActive` with the current time, and the schema's `timestamps: true`
plugin stamps `updatedAt` the same way. -/
def preSaveUser (now : Nat) (u : User) : User :=
  { u with lastActive := now, updatedAt := now }

/-- Community Post document (Post model), restricted to the fields used by
the trending-tags aggregation. -/
structure Post where
  tags : List String
  likes : List String
  status : SpotStatus
  createdAt : Nat
deriving DecidableEq, Repr

/-! ## Generic helpers shared by several routes -/

/-- Boolean order for a MongoDB `$sort` with up to three keys, each
descending (`k: -1`): `a` may come before `b` iff the key triple of `a` is
lexicographically ≥ that of `b`. -/
def desc3LE (k1 k2 k3 : α → Nat) (a b : α) : Bool :=
  k1 b < k1 a || (k1 a == k1 b && (k2 b < k2 a || (k2 a == k2 b && k3 b ≤ k3 a)))

theorem desc3LE_total (k1 k2 k3 : α → Nat) (a b : α) :
    (desc3LE k1 k2 k3 a b || desc3LE k1 k2 k3 b a) = true := by
  simp only [desc3LE, Bool.or_eq_true, Bool.and_eq_true, decide_eq_true_eq, beq_iff_eq]
  omega

theorem desc3LE_trans (k1 k2 k3 : α → Nat) (a b c : α)
    (hab : desc3LE k1 k2 k3 a b = true) (hbc : desc3LE k1 k2 k3 b c = true) :
    desc3LE k1 k2 k3 a c = true := by
  simp only [desc3LE, Bool.or_eq_true, Bool.and_eq_true, decide_eq_true_eq, beq_iff_eq] at *
  omega

theorem desc3LE_iff (k1 k2 k3 : α → Nat) (a b : α) :
    desc3LE k1 k2 k3 a b = true ↔
      (k1 b < k1 a ∨ (k1 a = k1 b ∧ (k2 b < k2 a ∨ (k2 a = k2 b ∧ k3 b ≤ k3 a)))) := by
  simp [desc3LE]

/-- Insertion of an element into a sorted list, the building block of the
sort modelling MongoDB's stable `$sort`. -/
def insertLe (le : α → α → Bool) (a : α) : List α → List α
  | [] => [a]
  | b :: l => if le a b then a :: b :: l else b :: insertLe le a l

/-- Stable insertion sort by a boolean order, modelling `$sort`. -/
def sortLe (le : α → α → Bool) : List α → List α
  | [] => []
  | a :: l => insertLe le a (sortLe le l)

theorem insertLe_perm (le : α → α → Bool) (a : α) (l : List α) :
    (insertLe le a l).Perm (a :: l) := by
  induction l with
  | nil => exact List.Perm.refl _
  | cons b l ih =>
    unfold insertLe
    by_cases h : le a b = true
    · rw [if_pos h]
    · rw [if_neg h]
      exact (ih.cons b).trans (List.Perm.swap a b l)

theorem sortLe_perm (le : α → α → Bool) (l : List α) :
    (sortLe le l).Perm l := by
  induction l with
  | nil => exact List.Perm.refl _
  | cons a l ih =>
    exact (insertLe_perm le a (sortLe le l)).trans (ih.cons a)

theorem mem_insertLe {le : α → α → Bool} {a x : α} {l : List α}
    (h : x ∈ insertLe le a l) : x = a ∨ x ∈ l := by
  have := (insertLe_perm le a l).mem_iff.mp h
  simpa using this

theorem pairwise_insertLe {le : α → α → Bool}
    (htrans : ∀ a b c, le a b = true → le b c = true → le a c = true)
    (htot : ∀ a b, (le a b || le b a) = true)
    {a : α} {l : List α} (hl : l.Pairwise (fun x y => le x y = true)) :
    (insertLe le a l).Pairwise (fun x y => le x y = true) := by
  induction l with
  | nil => simp [insertLe]
  | cons b l ih =>
    rcases List.pairwise_cons.mp hl with ⟨hb, hl'⟩
    unfold insertLe
    by_cases h : le a b = true
    · rw [if_pos h]
      refine List.pairwise_cons.mpr ⟨?_, hl⟩
      intro x hx
      rcases List.mem_cons.mp hx with rfl | hx'
      · exact h
      · exact htrans a b x h (hb x hx')
    · rw [if_neg h]
      have hba : le b a = true := by
        have hor := htot a b
        rcases Bool.or_eq_true _ _ |>.mp hor with h1 | h1
        · exact absurd h1 h
        · exact h1
      refine List.pairwise_cons.mpr ⟨?_, ih hl'⟩
      intro x hx
      rcases mem_insertLe hx with rfl | hx'
      · exact hba
      · exact hb x hx'

theorem pairwise_sortLe (le : α → α → Bool)
    (htrans : ∀ a b c, le a b = true → le b c = true → le a c = true)
    (htot : ∀ a b, (le a b || le b a) = true) (l : List α) :
    (sortLe le l).Pairwise (fun x y => le x y = true) := by
  induction l with
  | nil => simp [sortLe]
  | cons a l ih =>
    unfold sortLe
    exact pairwise_insertLe htrans htot ih

/-! ### Character-level models of the JavaScript string operations -/

/-- JavaScript `s.split(sep)` for a single-character separator, over the
character list of the string. -/
def splitOnChar (c : Char) : List Char → List (List Char)
  | [] => [[]]
  | x :: xs =>
    if x = c then [] :: splitOnChar c xs
    else
      match splitOnChar c xs with
      | y :: ys => (x :: y) :: ys
      | [] => [[x]]

/-- JavaScript `s.startsWith(p)`. -/
def strStartsWith (s p : String) : Bool :=
  p.data.isPrefixOf s.data

/-- The JavaScript whitespace characters `.trim()` removes, restricted to
the ASCII ones a bearer token could carry. -/
def isJsSpace (c : Char) : Bool :=
  c = ' ' || c = '\t' || c = '\n' || c = '\r'

/-- JavaScript `s.trim()`. -/
def trimChars (l : List Char) : List Char :=
  ((l.dropWhile isJsSpace).reverse.dropWhile isJsSpace).reverse

/-- The decimal naturals accepted by express-validator's `isInt` (and then
read back by `parseInt`): a non-empty all-digit string. -/
def strToNat? (s : String) : Option Nat :=
  if s.data ≠ [] ∧ s.data.all Char.isDigit then
    some (s.data.foldl (fun n c => n * 10 + (c.toNat - 48)) 0)
  else none

/-- The `.skip((page-1)*limit).limit(limit)` / `$skip`+`$limit` pagination
applied by every listing route. -/
def paginate (page limit : Nat) (l : List α) : List α :=
  (l.drop ((page - 1) * limit)).take limit

theorem paginate_sublist (page limit : Nat) (l : List α) :
    (paginate page limit l).Sublist l :=
  ((l.drop ((page - 1) * limit)).take_sublist limit).trans (l.drop_sublist _)

theorem paginate_length_le (page limit : Nat) (l : List α) :
    (paginate page limit l).length ≤ limit := by
  simp [paginate]

/-- JavaScript `Math.ceil(a / b)` for natural `a` and positive natural `b`,
as computed over the naturals. -/
def jsCeilDiv (a b : Nat) : Nat :=
  (a + b - 1) / b

theorem jsCeilDiv_le_of_le_mul {a b n : Nat} (hb : 0 < b) (h : a ≤ b * n) :
    jsCeilDiv a b ≤ n := by
  unfold jsCeilDiv
  have hq := Nat.div_add_mod (a + b - 1) b
  have hr : (a + b - 1) % b < b := Nat.mod_lt _ hb
  by_contra hlt
  push_neg at hlt
  have h2 : b * (n + 1) ≤ b * ((a + b - 1) / b) := Nat.mul_le_mul_left b hlt
  have h5 : b * (n + 1) = b * n + b := by ring
  omega

theorem le_mul_jsCeilDiv {a b : Nat} (hb : 0 < b) : a ≤ b * jsCeilDiv a b := by
  unfold jsCeilDiv
  have hq := Nat.div_add_mod (a + b - 1) b
  have hr : (a + b - 1) % b < b := Nat.mod_lt _ hb
  omega

theorem jsCeilDiv_eq_ceil (a b : Nat) (hb : 0 < b) :
    ((jsCeilDiv a b : Nat) : ℤ) = ⌈(a : ℚ) / (b : ℚ)⌉ := by
  have hbq : (0 : ℚ) < (b : ℚ) := by exact_mod_cast hb
  refine le_antisymm ?_ ?_
  · have h1 : (a : ℚ) / (b : ℚ) ≤ (⌈(a : ℚ) / (b : ℚ)⌉ : ℚ) := Int.le_ceil _
    have hcnn : (0 : ℤ) ≤ ⌈(a : ℚ) / (b : ℚ)⌉ := Int.ceil_nonneg (by positivity)
    obtain ⟨n, hn⟩ : ∃ n : Nat, ⌈(a : ℚ) / (b : ℚ)⌉ = (n : ℤ) :=
      ⟨(⌈(a : ℚ) / (b : ℚ)⌉).toNat, (Int.toNat_of_nonneg hcnn).symm⟩
    rw [hn]
    have h2 : (a : ℚ) ≤ (b : ℚ) * (n : ℚ) := by
      have h0 := (div_le_iff₀ hbq).mp h1
      rw [hn] at h0
      push_cast at h0 ⊢
      linarith [mul_comm (b : ℚ) (n : ℚ)]
    have h3 : a ≤ b * n := by exact_mod_cast h2
    exact_mod_cast jsCeilDiv_le_of_le_mul hb h3
  · have h3 : a ≤ b * jsCeilDiv a b := le_mul_jsCeilDiv hb
    refine Int.ceil_le.mpr ?_
    rw [div_le_iff₀ hbq]
    have h4 : (a : ℚ) ≤ (b : ℚ) * (jsCeilDiv a b : ℚ) := by exact_mod_cast h3
    push_cast
    linarith [mul_comm (b : ℚ) ((jsCeilDiv a b : Nat) : ℚ)]

/-- Model of JavaScript `x.toFixed(1)` (cast back to a Number by Mongoose):
rounding to one decimal place. -/
def toFixed1 (q : ℚ) : ℚ :=
  ((round (10 * q) : ℤ) : ℚ) / 10

theorem round_mono_rat {x y : ℚ} (h : x ≤ y) : round x ≤ round y := by
  rw [round_eq, round_eq]
  exact Int.floor_le_floor (by linarith)

theorem toFixed1_bounds {q : ℚ} (h1 : 1 ≤ q) (h5 : q ≤ 5) :
    1 ≤ toFixed1 q ∧ toFixed1 q ≤ 5 := by
  have hlo : (10 : ℤ) ≤ round (10 * q) := by
    have : round ((10 : ℚ)) ≤ round (10 * q) := round_mono_rat (by linarith)
    simpa using this
  have hhi : round (10 * q) ≤ (50 : ℤ) := by
    have : round (10 * q) ≤ round ((50 : ℚ)) := round_mono_rat (by linarith)
    simpa using this
  constructor
  · rw [toFixed1, le_div_iff₀ (by norm_num : (0:ℚ) < 10)]
    exact_mod_cast by exact_mod_cast hlo
  · rw [toFixed1, div_le_iff₀ (by norm_num : (0:ℚ) < 10)]
    exact_mod_cast by exact_mod_cast hhi

/-! ## Spot mutations (src/controller/spotController.js, src/models/Spot.js) -/

/-- Pre-save hook of src/models/Spot.js: when the comments array was
modified, recompute `averageRating` as the mean of the comment ratings
rounded to one decimal place (`.toFixed(1)`), or 0 when there are no
ratings.  Every comment carries a rating (the schema requires it), so the
hook's `filter(r => r !== undefined)` keeps every element. -/
def computeAverageRating (comments : List Comment) : ℚ :=
  let ratings := comments.map (·.rating)
  if 0 < ratings.length then toFixed1 (ratings.sum / (ratings.length : ℚ)) else 0

/-- A `spot.save()` after the comments array was modified: the pre-save
hook re-establishes the `averageRating` invariant. -/
def preSaveSpot (spot : Spot) : Spot :=
  { spot with averageRating := computeAverageRating spot.comments }

/-- likeSpot of src/controller/spotController.js, acting on a found spot:
403 when not approved, 400 when the user already liked it, otherwise push
the user id onto `likedBy` and answer 200. -/
def likeSpot (spot : Spot) (userId : String) : Nat × Spot :=
  if spot.status ≠ SpotStatus.approved then (403, spot)
  else if userId ∈ spot.likedBy then (400, spot)
  else (200, { spot with likedBy := spot.likedBy ++ [userId] })

/-- unlikeSpot of src/controller/spotController.js, acting on a found spot:
403 when not approved, 400 when the user has not liked it, otherwise
`$pull` the user id from `likedBy` and answer 200. -/
def unlikeSpot (spot : Spot) (userId : String) : Nat × Spot :=
  if spot.status ≠ SpotStatus.approved then (403, spot)
  else if userId ∉ spot.likedBy then (400, spot)
  else (200, { spot with likedBy := spot.likedBy.filter (· ≠ userId) })

/-- submitSpot of src/controller/spotController.js (and the POST / route of
src/routes/spotsRoute.js): a newly submitted spot is created with
`status: "pending"` and schema defaults for the untouched fields. -/
def submitSpot (name content : String) (location : List ℚ) (photos : List String)
    (tags : List String) (bestTimeToVisit uniqueFacts : String)
    (submitter : Nat) (now : Nat) : Spot :=
  { name := name
    content := content
    location := location
    photos := photos
    tags := tags
    bestTimeToVisit := bestTimeToVisit
    uniqueFacts := uniqueFacts
    submittedBy := submitter
    likedBy := []
    comments := []
    reports := []
    views := 0
    status := SpotStatus.pending
    averageRating := 0
    createdAt := now }

/-- The operations of this repository that write an existing Spot document.
`ownerUpdate` carries the effect of `Object.assign(spot, req.body)` as a
function on the document (the body may overwrite any subset of fields);
`adminSetStatus` is the PATCH /:id/status body, whose `isIn` validator
restricts it to the three enum values (enforced here by the type). -/
inductive SpotOp
  | adminSetStatus (s : SpotStatus)
  | ownerUpdate (body : Spot → Spot)
  | like (userId : String)
  | unlike (userId : String)
  | addComment (c : Comment)
  | report (r : Report)
  | view

/-- Whether an operation is the admin status-update endpoint. -/
def SpotOp.isAdminSetStatus : SpotOp → Bool
  | SpotOp.adminSetStatus _ => true
  | _ => false

/-- State change each operation performs on the spot document, read off the
corresponding handler (spotController.js likeSpot/unlikeSpot/addComment/
fetchSpot/reportSpot/updateSpot, spotsRoute.js PATCH /:id/status). -/
def applySpotOp : SpotOp → Spot → Spot
  | SpotOp.adminSetStatus s, spot => { spot with status := s }
  | SpotOp.ownerUpdate body, spot => { body spot with status := SpotStatus.pending }
  | SpotOp.like userId, spot => (likeSpot spot userId).2
  | SpotOp.unlike userId, spot => (unlikeSpot spot userId).2
  | SpotOp.addComment c, spot => preSaveSpot { spot with comments := spot.comments ++ [c] }
  | SpotOp.report r, spot => { spot with reports := spot.reports ++ [r] }
  | SpotOp.view, spot => { spot with views := spot.views + 1 }

/-! ## Global error handler (server files, src/unnamed/part_004 and part_005) -/

/-- A JavaScript Error as the global handler reads it: `status` 0 models a
falsy/absent `err.status`, an empty `message` models a falsy message. -/
structure JsError where
  status : Nat
  message : String
deriving DecidableEq, Repr

/-- The single global Express error handler: it logs the error and answers
`err.status || 500` with `err.message || "Internal Server Error"`. -/
def globalErrorHandler (e : JsError) : Nat × String :=
  ((if e.status = 0 then 500 else e.status),
   (if e.message = "" then "Internal Server Error" else e.message))

/-- Dispatch of one request: a handler either produces a response or throws;
a thrown error that no route-level branch catches propagates to the global
handler.  The second component is the log written by the error handler. -/
def runHandler (h : Except JsError (Nat × String)) : (Nat × String) × List String :=
  match h with
  | Except.ok r => (r, [])
  | Except.error e => (globalErrorHandler e, [e.message])

/-! ## Auth middleware (src/middleware/authMiddleware.js, JWT revision) -/

/-- Outcome of the auth middleware: an early JSON rejection with an HTTP
status, or control passed to the route handler with the decoded user. -/
inductive AuthResult
  | reject (status : Nat)
  | proceed (userId : Nat) (isAdmin : Bool)
deriving DecidableEq, Repr

/-- The token part of the Authorization header, JavaScript
`authHeader.split(" ")[1]` (undefined collapses to the empty string, which
is what the falsiness test in the middleware checks). -/
def extractToken (h : String) : String :=
  String.mk ((splitOnChar ' ' h.data).getD 1 [])

/-- The middleware's token cleanup: strip one surrounding double quote from
each end (`replace(/^"|"$/g, "")`) and trim whitespace. -/
def cleanToken (t : String) : String :=
  let t1 := if t.data.head? = some '"' then t.data.drop 1 else t.data
  let t2 := if t1.getLast? = some '"' then t1.dropLast else t1
  String.mk (trimChars t2)

/-- authMiddleware of src/middleware/authMiddleware.js: 401 when the
Authorization header is missing, lacks the "Bearer " scheme or carries an
empty token; 403 when the cleaned token is not of the three-part JWT shape
or `jwt.verify` rejects it (modelled by the `verify` parameter, returning
the `userId` payload field on success); 404 when the decoded user is not in
the database; otherwise control proceeds with the user's admin flag. -/
def authMiddleware (verify : String → Option Nat) (users : List User)
    (authHeader : Option String) : AuthResult :=
  match authHeader with
  | none => AuthResult.reject 401
  | some h =>
    if ! strStartsWith h "Bearer " then AuthResult.reject 401
    else
      let token0 := extractToken h
      if token0 = "" then AuthResult.reject 401
      else
        let token := cleanToken token0
        if (splitOnChar '.' token.data).length ≠ 3 then AuthResult.reject 403
        else
          match verify token with
          | none => AuthResult.reject 403
          | some userId =>
            match users.find? (fun u => u.id == userId) with
            | none => AuthResult.reject 404
            | some u => AuthResult.proceed userId u.isAdmin

/-- An endpoint protected by the middleware: on rejection the stored state
is returned untouched and the handler is never run. -/
def protectedRoute {σ : Type} (verify : String → Option Nat) (users : List User)
    (authHeader : Option String) (state : σ)
    (handler : Nat → Bool → σ → Nat × σ) : Nat × σ :=
  match authMiddleware verify users authHeader with
  | AuthResult.reject s => (s, state)
  | AuthResult.proceed userId isAdmin => handler userId isAdmin state

/-! ## Refresh token endpoint (src/controller/authController.js refreshToken) -/

/-- The refreshTokens rotation the success path performs on the matched
user: drop the presented token, append the newly signed one. -/
def rotateTokens (tok newTok : String) (u : User) : User :=
  { u with refreshTokens := u.refreshTokens.filter (· ≠ tok) ++ [newTok] }

/-- POST /api/auth/refresh: 400 without a body token; 403 when `jwt.verify`
rejects it, when the decoded user does not exist, or when the token is not
in the user's stored `refreshTokens`; otherwise rotate the token list,
save the user (which stamps `lastActive := now` through the pre-save hook)
and answer 200.  `verify` models `jwt.verify` (returning the `userId`
claim), `newTok` the freshly signed replacement refresh token. -/
def refreshTokenHandler (verify : String → Option Nat) (newTok : String)
    (now : Nat) (users : List User) (body : Option String) : Nat × List User :=
  match body with
  | none => (400, users)
  | some tok =>
    match verify tok with
    | none => (403, users)
    | some userId =>
      match users.find? (fun u => u.id == userId) with
      | none => (403, users)
      | some u =>
        if tok ∈ u.refreshTokens then
          (200, users.map (fun v =>
            if v.id == userId then preSaveUser now (rotateTokens tok newTok v) else v))
        else (403, users)

/-! ## Registration (src/routes/authRoutes.js signupValidation,
src/controller/authController.js signup) -/

/-- Request body of POST /api/auth/register; absent fields are `none`. -/
structure SignupBody where
  email : Option String
  password : Option String
  displayName : Option String
deriving DecidableEq, Repr

/-- Character class of the displayName regex `^[a-zA-Z0-9_]+$`. -/
def isWordChar (c : Char) : Bool :=
  c.isAlphanum || c = '_'

/-- Field-level messages produced by the signupValidation chain of
src/routes/authRoutes.js.  `isEmail` models the external validator.js
email check.  A missing field fails every validator attached to it. -/
def signupValidationErrors (isEmail : String → Bool) (b : SignupBody) : List String :=
  (match b.email with
   | none => ["Invalid email address"]
   | some e => if isEmail e then [] else ["Invalid email address"]) ++
  (match b.password with
   | none => ["Password must be at least 6 characters"]
   | some p => if p.length < 6 then ["Password must be at least 6 characters"] else []) ++
  (match b.displayName with
   | none => ["Display name is required",
              "Display name must be between 3 and 20 characters",
              "Display name can only contain letters, numbers, and underscores"]
   | some d =>
     (if d = "" then ["Display name is required"] else []) ++
     (if d.length < 3 || 20 < d.length
      then ["Display name must be between 3 and 20 characters"] else []) ++
     (if d ≠ "" && d.data.all isWordChar then []
      else ["Display name can only contain letters, numbers, and underscores"]))

/-- POST /api/auth/register: the validate middleware answers 400 with the
error array when validation fails; otherwise the signup controller rejects
duplicate emails with 400 and else stores the freshly built user (password
hashing, uuid and token signing are external, so the created document is
the `newUser` parameter).  Returns status, error messages and the user
store after the request. -/
def registerRoute (isEmail : String → Bool) (newUser : SignupBody → User)
    (users : List User) (b : SignupBody) : Nat × List String × List User :=
  let errs := signupValidationErrors isEmail b
  if errs ≠ [] then (400, errs, users)
  else
    match users.find? (fun u => u.email == b.email.getD "") with
    | some _ => (400, ["Email already in use"], users)
    | none => (201, [], users ++ [newUser b])

/-! ## Paginated listings (src/routes/spotsRoute.js, src/controller/spotController.js) -/

/-- express-validator `isInt({ min: 1 })` on a query-string value: a decimal
natural number that is at least 1 (larger integers are in range, there is
no upper bound). -/
def isPositiveIntStr (s : String) : Bool :=
  match strToNat? s with
  | some n => 1 ≤ n
  | none => false

/-- express-validator `isInt({ min: 1, max: 100 })` on a query-string value. -/
def isLimitStr (s : String) : Bool :=
  match strToNat? s with
  | some n => 1 ≤ n && n ≤ 100
  | none => false

/-- Field-level messages of the paginationValidation chain of
src/routes/spotsRoute.js: `page` optional but, when present, a positive
integer; `limit` optional but, when present, an integer between 1 and 100. -/
def paginationErrors (pageQ limitQ : Option String) : List String :=
  (match pageQ with
   | none => []
   | some s => if isPositiveIntStr s then [] else ["Page must be a positive integer"]) ++
  (match limitQ with
   | none => []
   | some s => if isLimitStr s then [] else ["Limit must be between 1 and 100"])

/-- JavaScript `parseInt(q) || d` for a validated-or-absent query value. -/
def parseIntOr (q : Option String) (d : Nat) : Nat :=
  match q.bind strToNat? with
  | some n => if n = 0 then d else n
  | none => d

/-- Response shape shared by the paginated spot listings. -/
structure SpotListResponse where
  status : Nat
  errors : List String
  spots : List Spot
  totalPages : Nat
deriving Repr

/-- The approved spots, in store order (the `{ status: "approved" }` query
filter used by every public listing). -/
def approvedSpots (db : List Spot) : List Spot :=
  db.filter (fun s => s.status == SpotStatus.approved)

/-- GET /api/spots (src/routes/spotsRoute.js lines 36-54): validate the
pagination query, then page through the approved spots and report
`totalPages = Math.ceil(total / limit)`. -/
def getAllSpots (db : List Spot) (pageQ limitQ : Option String) : SpotListResponse :=
  let errs := paginationErrors pageQ limitQ
  if errs ≠ [] then ⟨400, errs, [], 0⟩
  else
    let page := parseIntOr pageQ 1
    let limit := parseIntOr limitQ 10
    let matching := approvedSpots db
    ⟨200, [], paginate page limit matching, jsCeilDiv matching.length limit⟩

/-- interestScore of the fetchFeed aggregation
(`$size` of `$setIntersection` of the spot's tags with the user's
interests): the number of distinct tags the spot shares with them. -/
def interestScore (interests : List String) (s : Spot) : Nat :=
  ((s.tags.filter (fun t => t ∈ interests)).dedup).length

/-- The spots matched by the fetchFeed aggregation: approved spots
submitted by a followed user or by the requesting user
(`userIds = [...followedUsers, user._id]`). -/
def feedMatching (db : List Spot) (u : User) : List Spot :=
  db.filter (fun s =>
    (u.following ++ [u.id]).contains s.submittedBy && s.status == SpotStatus.approved)

/-- The fetchFeed `$sort`: interest score descending, then creation date
descending. -/
def feedSorted (db : List Spot) (u : User) : List Spot :=
  sortLe (desc3LE (interestScore u.interests) (·.createdAt) (fun _ => 0)) (feedMatching db u)

/-- fetchFeed of src/controller/spotController.js: look the user up, count
the matching spots, run the scoring aggregation and paginate its result.
`page` and `limit` are the values produced by `parseInt(...) || default`. -/
def fetchFeed (db : List Spot) (users : List User) (userId : Nat)
    (page limit : Nat) : SpotListResponse :=
  match users.find? (fun u => u.id == userId) with
  | none => ⟨404, [], [], 0⟩
  | some u =>
    ⟨200, [], paginate page limit (feedSorted db u),
     jsCeilDiv (feedMatching db u).length limit⟩

/-- The GET /trending `$sort`: like count descending, then comment count
descending, then creation date descending. -/
def trendingSorted (db : List Spot) : List Spot :=
  sortLe (desc3LE (fun s => s.likedBy.length) (fun s => s.comments.length) (·.createdAt)) (approvedSpots db)

/-- GET /api/spots/trending (src/routes/spotsRoute.js lines 164-232):
validate the pagination query, then page through the approved spots sorted
by like count, comment count and creation date, all descending. -/
def getTrendingSpots (db : List Spot) (pageQ limitQ : Option String) : SpotListResponse :=
  let errs := paginationErrors pageQ limitQ
  if errs ≠ [] then ⟨400, errs, [], 0⟩
  else
    let page := parseIntOr pageQ 1
    let limit := parseIntOr limitQ 10
    ⟨200, [], paginate page limit (trendingSorted db),
     jsCeilDiv (approvedSpots db).length limit⟩

/-- The tags of all approved posts, with multiplicity
(`$match {status:"approved"}` followed by `$unwind "$tags"`). -/
def approvedPostTags (posts : List Post) : List String :=
  (posts.filter (fun p => p.status == SpotStatus.approved)).flatMap (·.tags)

/-- GET /api/community/tags/trending (src/unnamed/part_000 lines 142-163):
group the approved posts' tags, count each tag's occurrences, sort by count
descending and truncate to the limit. -/
def trendingTags (posts : List Post) (limit : Nat) : List (String × Nat) :=
  let tags := approvedPostTags posts
  let grouped := tags.dedup.map (fun t => (t, tags.count t))
  (sortLe (desc3LE Prod.snd (fun _ => 0) (fun _ => 0)) grouped).take limit

/-! ## Claim C2: global error handling -/

/-- C2 (counterexample): an exception carrying its own status 404 and
message "boom" reaches the global handler, which passes both through; the
response is not the generic 500 the claim states. -/
theorem C2_counterexample :
    (runHandler (Except.error ⟨404, "boom"⟩)).1 = (404, "boom") ∧
    (runHandler (Except.error ⟨404, "boom"⟩)).1.1 ≠ 500 := by
  constructor
  · rfl
  · decide

/-- C2 (amended): every uncaught exception propagates to the single global
handler, which logs its message and responds with the exception's own
status when set (500 otherwise) and its own message when set (a generic
message otherwise). -/
theorem C2_errorHandler (e : JsError) :
    (runHandler (Except.error e)).2 = [e.message] ∧
    (e.status = 0 → (runHandler (Except.error e)).1.1 = 500) ∧
    (e.status ≠ 0 → (runHandler (Except.error e)).1.1 = e.status) ∧
    (e.message = "" → (runHandler (Except.error e)).1.2 = "Internal Server Error") ∧
    (e.message ≠ "" → (runHandler (Except.error e)).1.2 = e.message) := by
  refine ⟨rfl, ?_, ?_, ?_, ?_⟩ <;> intro h <;>
    simp [runHandler, globalErrorHandler, h]

/-- C2 witness: a status-less, message-less exception produces the generic
500 response. -/
theorem C2_errorHandler_witness :
    (runHandler (Except.error ⟨0, ""⟩)).1.1 = 500 ∧
    (runHandler (Except.error ⟨0, ""⟩)).1.2 = "Internal Server Error" :=
  ⟨(C2_errorHandler ⟨0, ""⟩).2.1 rfl, (C2_errorHandler ⟨0, ""⟩).2.2.2.1 rfl⟩

/-! ## Claim C8: like/unlike round trip -/

theorem filter_ne_of_not_mem {l : List String} {u : String} (h : u ∉ l) :
    l.filter (· ≠ u) = l := by
  refine List.filter_eq_self.mpr ?_
  intro a ha
  have hau : a ≠ u := fun hau => h (hau ▸ ha)
  simp [hau]

theorem unlike_after_like (spot : Spot) (u : String)
    (happr : spot.status = SpotStatus.approved) (hmem : u ∉ spot.likedBy) :
    unlikeSpot { spot with likedBy := spot.likedBy ++ [u] } u = (200, spot) := by
  have hst : ({ spot with likedBy := spot.likedBy ++ [u] } : Spot).status
      = SpotStatus.approved := happr
  have h2 : u ∈ spot.likedBy ++ [u] := by simp
  have h3 : (spot.likedBy ++ [u]).filter (· ≠ u) = spot.likedBy := by
    rw [List.filter_append, filter_ne_of_not_mem hmem]
    simp
  unfold unlikeSpot
  rw [if_neg (not_not_intro hst), if_neg (not_not_intro h2), h3]

/-- C8: on an approved spot, liking by a user not yet in likedBy appends
exactly that user and answers 200, and a subsequent unlike removes exactly
that user, restoring the original spot; liking twice answers 400 and leaves
the spot unchanged, as does unliking without a prior like. -/
theorem C8_like_unlike (spot : Spot) (userId : String)
    (happr : spot.status = SpotStatus.approved) :
    (userId ∉ spot.likedBy →
      likeSpot spot userId = (200, { spot with likedBy := spot.likedBy ++ [userId] }) ∧
      unlikeSpot (likeSpot spot userId).2 userId = (200, spot)) ∧
    (userId ∈ spot.likedBy → likeSpot spot userId = (400, spot)) ∧
    (userId ∉ spot.likedBy → unlikeSpot spot userId = (400, spot)) := by
  refine ⟨?_, ?_, ?_⟩ <;> intro hmem
  · have h1 : likeSpot spot userId = (200, { spot with likedBy := spot.likedBy ++ [userId] }) := by
      unfold likeSpot
      rw [if_neg (not_not_intro happr), if_neg hmem]
    exact ⟨h1, by rw [h1]; exact unlike_after_like spot userId happr hmem⟩
  · unfold likeSpot
    rw [if_neg (not_not_intro happr), if_pos hmem]
  · unfold unlikeSpot
    rw [if_neg (not_not_intro happr), if_pos hmem]

/-- C8 witness: the round trip on a concrete approved spot. -/
theorem C8_like_unlike_witness :
    let spot : Spot :=
      ⟨"Falls", "Nice falls here", [1, 2], [], ["Nature"], "", "", 1,
       ["other"], [], [], 0, SpotStatus.approved, 0, 5⟩
    ("u1" ∉ spot.likedBy) ∧
    likeSpot spot "u1" = (200, { spot with likedBy := ["other", "u1"] }) ∧
    unlikeSpot (likeSpot spot "u1").2 "u1" = (200, spot) := by
  refine ⟨by decide, ?_, ?_⟩
  · exact ((C8_like_unlike _ "u1" rfl).1 (by decide)).1
  · exact ((C8_like_unlike _ "u1" rfl).1 (by decide)).2

/-! ## Claim C10: averageRating invariant -/

theorem mean_bounds {l : List ℚ} (hne : l ≠ [])
    (h : ∀ x ∈ l, 1 ≤ x ∧ x ≤ 5) :
    1 ≤ l.sum / (l.length : ℚ) ∧ l.sum / (l.length : ℚ) ≤ 5 := by
  have hlen : 0 < l.length := List.length_pos.mpr hne
  have hlenq : (0 : ℚ) < (l.length : ℚ) := by exact_mod_cast hlen
  have hlow : (l.length : ℚ) * 1 ≤ l.sum := by
    have := List.card_nsmul_le_sum l 1 (fun x hx => (h x hx).1)
    simpa [nsmul_eq_mul] using this
  have hhigh : l.sum ≤ (l.length : ℚ) * 5 := by
    have := List.sum_le_card_nsmul l 5 (fun x hx => (h x hx).2)
    simpa [nsmul_eq_mul] using this
  constructor
  · rw [le_div_iff₀ hlenq]
    linarith
  · rw [div_le_iff₀ hlenq]
    linarith

/-- C10: saving a spot whose comments changed recomputes averageRating as
the mean of the comment ratings rounded to one decimal (0 with no
comments); with every rating in [1,5] the stored value lies in [0,5]. -/
theorem C10_averageRating (spot : Spot)
    (hr : ∀ c ∈ spot.comments, 1 ≤ c.rating ∧ c.rating ≤ 5) :
    (spot.comments = [] → (preSaveSpot spot).averageRating = 0) ∧
    (spot.comments ≠ [] →
      (preSaveSpot spot).averageRating =
        toFixed1 ((spot.comments.map (·.rating)).sum / (spot.comments.length : ℚ))) ∧
    0 ≤ (preSaveSpot spot).averageRating ∧
    (preSaveSpot spot).averageRating ≤ 5 := by
  by_cases hne : spot.comments = []
  · refine ⟨fun _ => ?_, fun hc => absurd hne hc, ?_, ?_⟩ <;>
      simp [preSaveSpot, computeAverageRating, hne]
  · have hmapne : spot.comments.map (·.rating) ≠ [] := by
      simpa using hne
    have hbounds : ∀ x ∈ spot.comments.map (·.rating), 1 ≤ x ∧ x ≤ 5 := by
      intro x hx
      obtain ⟨c, hc, hcx⟩ := List.mem_map.mp hx
      exact hcx ▸ hr c hc
    have hmean := mean_bounds hmapne hbounds
    have hlen : (spot.comments.map (·.rating)).length = spot.comments.length :=
      List.length_map _ _
    have hpos : 0 < (spot.comments.map (·.rating)).length :=
      List.length_pos.mpr hmapne
    have heq : (preSaveSpot spot).averageRating =
        toFixed1 ((spot.comments.map (·.rating)).sum / (spot.comments.length : ℚ)) := by
      show computeAverageRating spot.comments = _
      unfold computeAverageRating
      rw [if_pos hpos, hlen]
    rw [hlen] at hmean
    have hfix := toFixed1_bounds hmean.1 hmean.2
    refine ⟨fun hc => absurd hc hne, fun _ => heq, ?_, ?_⟩
    · rw [heq]; linarith [hfix.1]
    · rw [heq]; exact hfix.2

/-- C10 witness: a spot with two rated comments gets the rounded mean. -/
theorem C10_averageRating_witness :
    let spot : Spot :=
      ⟨"Falls", "Nice falls here", [1, 2], [], ["Nature"], "", "", 1, [],
       [⟨2, "bob", "great", 4, 1⟩, ⟨3, "eve", "ok", 5, 2⟩],
       [], 0, SpotStatus.approved, 0, 5⟩
    (spot.comments ≠ []) ∧
    (preSaveSpot spot).averageRating =
      toFixed1 ((spot.comments.map (·.rating)).sum / (spot.comments.length : ℚ)) ∧
    0 ≤ (preSaveSpot spot).averageRating ∧
    (preSaveSpot spot).averageRating ≤ 5 := by
  intro spot
  exact ⟨by decide,
    (C10_averageRating _ (by decide)).2.1 (by decide),
    (C10_averageRating _ (by decide)).2.2.1,
    (C10_averageRating _ (by decide)).2.2.2⟩

/-! ## Claim C3: approval workflow -/

/-- C3: a submitted spot starts pending; the status field only holds the
three enum values; every spot-writing operation other than the admin
status endpoint leaves the status unchanged or resets it to pending (the
owner update always resets it to pending); the admin endpoint stores
exactly the validated status it was given. -/
theorem C3_statusWorkflow
    (name content : String) (location : List ℚ) (photos tags : List String)
    (btv uf : String) (submitter now : Nat)
    (op : SpotOp) (spot : Spot) (st : SpotStatus) (body : Spot → Spot)
    (hop : op.isAdminSetStatus = false) :
    (submitSpot name content location photos tags btv uf submitter now).status
      = SpotStatus.pending ∧
    (spot.status = SpotStatus.pending ∨ spot.status = SpotStatus.approved ∨
      spot.status = SpotStatus.rejected) ∧
    ((applySpotOp op spot).status = spot.status ∨
      (applySpotOp op spot).status = SpotStatus.pending) ∧
    (applySpotOp (SpotOp.ownerUpdate body) spot).status = SpotStatus.pending ∧
    (applySpotOp (SpotOp.adminSetStatus st) spot).status = st := by
  refine ⟨rfl, ?_, ?_, rfl, rfl⟩
  · cases h : spot.status
    · exact Or.inl rfl
    · exact Or.inr (Or.inl rfl)
    · exact Or.inr (Or.inr rfl)
  · cases op with
    | adminSetStatus s => simp [SpotOp.isAdminSetStatus] at hop
    | ownerUpdate b => exact Or.inr rfl
    | like userId =>
      left
      simp only [applySpotOp, likeSpot]
      split
      · rfl
      · split <;> rfl
    | unlike userId =>
      left
      simp only [applySpotOp, unlikeSpot]
      split
      · rfl
      · split <;> rfl
    | addComment c => exact Or.inl rfl
    | report r => exact Or.inl rfl
    | view => exact Or.inl rfl

/-- C3 witness: a like on a concrete spot is not the admin endpoint and
preserves the status; the admin endpoint sets the status it was given. -/
theorem C3_statusWorkflow_witness :
    let spot : Spot :=
      ⟨"Falls", "Nice falls here", [1, 2], [], ["Nature"], "", "", 1, [],
       [], [], 0, SpotStatus.approved, 0, 5⟩
    (SpotOp.like "u1").isAdminSetStatus = false ∧
    (submitSpot "Falls" "Nice falls here" [1, 2] [] ["Nature"] "" "" 1 5).status
      = SpotStatus.pending ∧
    ((applySpotOp (SpotOp.like "u1") spot).status = spot.status ∨
      (applySpotOp (SpotOp.like "u1") spot).status = SpotStatus.pending) ∧
    (applySpotOp (SpotOp.adminSetStatus SpotStatus.rejected) spot).status
      = SpotStatus.rejected := by
  intro spot
  have h := C3_statusWorkflow "Falls" "Nice falls here" [1, 2] [] ["Nature"] "" "" 1 5
    (SpotOp.like "u1") spot SpotStatus.rejected id rfl
  exact ⟨rfl, h.1, h.2.2.1, h.2.2.2.2⟩

/-! ## Claim C9: refresh token rotation -/

/-- C9 (counterexample): a successful refresh also modifies the user's
lastActive field (the User pre-save hook stamps it on every save) and its
updatedAt field (the schema's timestamps plugin), so "no other user field
is modified" fails on a user whose lastActive and updatedAt differ from
the save time. -/
theorem C9_counterexample :
    let u : User := ⟨1, "a@b.c", "pw", "alice", false, "", "", [], [], ["Nature"],
      ["tok1"], true, 0, 0⟩
    let verify : String → Option Nat := fun t => if t = "tok1" then some 1 else none
    (refreshTokenHandler verify "newT" 7 [u] (some "tok1")).1 = 200 ∧
    (refreshTokenHandler verify "newT" 7 [u] (some "tok1")).2
      = [preSaveUser 7 (rotateTokens "tok1" "newT" u)] ∧
    (preSaveUser 7 (rotateTokens "tok1" "newT" u)).lastActive ≠ u.lastActive ∧
    (preSaveUser 7 (rotateTokens "tok1" "newT" u)).updatedAt ≠ u.updatedAt := by
  refine ⟨rfl, rfl, by decide, by decide⟩

/-- C9 (amended): a missing body token answers 400 and changes nothing; a
token that fails verification, decodes to an unknown user, or is absent
from the stored refreshTokens answers 403 and changes nothing; on success
the presented token is dropped from the matched user's refreshTokens,
exactly one new token is appended, the save stamps lastActive (pre-save
hook) and updatedAt (timestamps plugin) with the save time, every other
field of every user is untouched, and other users are not modified at
all. -/
theorem C9_refreshToken (verify : String → Option Nat) (newTok : String)
    (now : Nat) (users : List User) :
    (refreshTokenHandler verify newTok now users none = (400, users)) ∧
    (∀ tok, verify tok = none →
      refreshTokenHandler verify newTok now users (some tok) = (403, users)) ∧
    (∀ tok userId, verify tok = some userId →
      users.find? (fun v => v.id == userId) = none →
      refreshTokenHandler verify newTok now users (some tok) = (403, users)) ∧
    (∀ tok userId u, verify tok = some userId →
      users.find? (fun v => v.id == userId) = some u → tok ∉ u.refreshTokens →
      refreshTokenHandler verify newTok now users (some tok) = (403, users)) ∧
    (∀ tok userId u, verify tok = some userId →
      users.find? (fun v => v.id == userId) = some u → tok ∈ u.refreshTokens →
      (refreshTokenHandler verify newTok now users (some tok)).1 = 200 ∧
      (refreshTokenHandler verify newTok now users (some tok)).2 =
        users.map (fun v =>
          if v.id == userId then preSaveUser now (rotateTokens tok newTok v) else v) ∧
      (∀ v : User,
        (preSaveUser now (rotateTokens tok newTok v)).refreshTokens
          = v.refreshTokens.filter (· ≠ tok) ++ [newTok] ∧
        (preSaveUser now (rotateTokens tok newTok v)).lastActive = now ∧
        (preSaveUser now (rotateTokens tok newTok v)).updatedAt = now ∧
        (preSaveUser now (rotateTokens tok newTok v)).id = v.id ∧
        (preSaveUser now (rotateTokens tok newTok v)).email = v.email ∧
        (preSaveUser now (rotateTokens tok newTok v)).password = v.password ∧
        (preSaveUser now (rotateTokens tok newTok v)).username = v.username ∧
        (preSaveUser now (rotateTokens tok newTok v)).isAdmin = v.isAdmin ∧
        (preSaveUser now (rotateTokens tok newTok v)).profilePic = v.profilePic ∧
        (preSaveUser now (rotateTokens tok newTok v)).bio = v.bio ∧
        (preSaveUser now (rotateTokens tok newTok v)).followers = v.followers ∧
        (preSaveUser now (rotateTokens tok newTok v)).following = v.following ∧
        (preSaveUser now (rotateTokens tok newTok v)).interests = v.interests ∧
        (preSaveUser now (rotateTokens tok newTok v)).notificationsEnabled
          = v.notificationsEnabled) ∧
      (∀ v ∈ users, v.id ≠ userId →
        v ∈ (refreshTokenHandler verify newTok now users (some tok)).2)) := by
  refine ⟨rfl, ?_, ?_, ?_, ?_⟩
  · intro tok hv
    simp [refreshTokenHandler, hv]
  · intro tok userId hv hf
    simp [refreshTokenHandler, hv, hf]
  · intro tok userId u hv hf hmem
    simp [refreshTokenHandler, hv, hf, hmem]
  · intro tok userId u hv hf hmem
    have hrun : refreshTokenHandler verify newTok now users (some tok) =
        (200, users.map (fun v =>
          if v.id == userId then preSaveUser now (rotateTokens tok newTok v) else v)) := by
      simp [refreshTokenHandler, hv, hf, hmem]
    refine ⟨by rw [hrun], by rw [hrun],
      fun v => ⟨rfl, rfl, rfl, rfl, rfl, rfl, rfl, rfl, rfl, rfl, rfl, rfl, rfl, rfl⟩, ?_⟩
    intro v hvmem hvid
    rw [hrun]
    have hkeep : (if v.id == userId then preSaveUser now (rotateTokens tok newTok v) else v)
        = v := by
      simp [hvid]
    exact hkeep ▸ List.mem_map_of_mem _ hvmem

/-- C9 witness: a concrete successful rotation and a concrete 403. -/
theorem C9_refreshToken_witness :
    let u : User := ⟨1, "a@b.c", "pw", "alice", false, "", "", [], [], ["Nature"],
      ["tok1", "tok2"], true, 0, 0⟩
    let verify : String → Option Nat := fun t => if t = "tok1" then some 1 else none
    (refreshTokenHandler verify "newT" 7 [u] (some "zzz") = (403, [u])) ∧
    (refreshTokenHandler verify "newT" 7 [u] (some "tok1")).1 = 200 ∧
    (refreshTokenHandler verify "newT" 7 [u] (some "tok1")).2 =
      [u].map (fun v => if v.id == 1 then preSaveUser 7 (rotateTokens "tok1" "newT" v) else v) ∧
    (preSaveUser 7 (rotateTokens "tok1" "newT" u)).refreshTokens
      = u.refreshTokens.filter (· ≠ "tok1") ++ ["newT"] := by
  intro u verify
  have h := C9_refreshToken verify "newT" 7 [u]
  refine ⟨h.2.1 "zzz" (by decide), ?_, ?_, ?_⟩
  · exact (h.2.2.2.2 "tok1" 1 u (by decide) (by decide) (by decide)).1
  · exact (h.2.2.2.2 "tok1" 1 u (by decide) (by decide) (by decide)).2.1
  · exact ((h.2.2.2.2 "tok1" 1 u (by decide) (by decide) (by decide)).2.2.1 u).1

/-! ## Claim C7: auth middleware gating -/

/-- C7 (counterexample): the header "Bearer " starts with the Bearer scheme
and presents the empty token, which is not a three-part JWT, yet the
middleware answers 401 (Missing token), not the 403 the claim requires for
every non-three-part token. -/
theorem C7_counterexample :
    strStartsWith "Bearer " "Bearer " = true ∧
    extractToken "Bearer " = "" ∧
    ((splitOnChar '.' "".data).length ≠ 3) ∧
    authMiddleware (fun _ => none) [] (some "Bearer ") = AuthResult.reject 401 := by
  refine ⟨by decide, by decide, by decide, by decide⟩

/-- C7 (amended): a missing header, a header without the Bearer scheme, or
an empty token part answer 401; a non-empty token that is not a three-part
JWT after cleanup, or that fails verification, answers 403; in every
rejected case the stored state is unchanged and the route handler is never
invoked (the outcome is the same for any handler). -/
theorem C7_authMiddleware {σ : Type} (verify : String → Option Nat)
    (users : List User) (state : σ) (handler : Nat → Bool → σ → Nat × σ) :
    (protectedRoute verify users none state handler = (401, state)) ∧
    (∀ h, strStartsWith h "Bearer " = false →
      protectedRoute verify users (some h) state handler = (401, state)) ∧
    (∀ h, strStartsWith h "Bearer " = true → extractToken h = "" →
      protectedRoute verify users (some h) state handler = (401, state)) ∧
    (∀ h, strStartsWith h "Bearer " = true → extractToken h ≠ "" →
      (splitOnChar '.' (cleanToken (extractToken h)).data).length ≠ 3 →
      protectedRoute verify users (some h) state handler = (403, state)) ∧
    (∀ h, strStartsWith h "Bearer " = true → extractToken h ≠ "" →
      (splitOnChar '.' (cleanToken (extractToken h)).data).length = 3 →
      verify (cleanToken (extractToken h)) = none →
      protectedRoute verify users (some h) state handler = (403, state)) ∧
    (∀ hdr s, authMiddleware verify users hdr = AuthResult.reject s →
      ∀ h₁ h₂ : Nat → Bool → σ → Nat × σ,
        protectedRoute verify users hdr state h₁ = (s, state) ∧
        protectedRoute verify users hdr state h₁
          = protectedRoute verify users hdr state h₂) := by
  refine ⟨rfl, ?_, ?_, ?_, ?_, ?_⟩
  · intro h hb
    simp [protectedRoute, authMiddleware, hb]
  · intro h hb ht
    simp [protectedRoute, authMiddleware, hb, ht]
  · intro h hb ht h3
    simp [protectedRoute, authMiddleware, hb, ht, h3]
  · intro h hb ht h3 hv
    simp [protectedRoute, authMiddleware, hb, ht, h3, hv]
  · intro hdr s hrej h₁ h₂
    constructor
    · simp [protectedRoute, hrej]
    · simp [protectedRoute, hrej]

/-- C7 witness: a cleaned one-part token is rejected with 403 leaving the
state untouched. -/
theorem C7_authMiddleware_witness :
    protectedRoute (fun _ => none) [] (some "Bearer abc") (0 : Nat)
      (fun _ _ st => (200, st + 1)) = (403, 0) :=
  (C7_authMiddleware (fun _ => none) [] (0 : Nat)
    (fun _ _ st => (200, st + 1))).2.2.2.1 "Bearer abc"
    (by decide) (by decide) (by decide)

/-! ## Claim C4: registration validation -/

/-- Invalid email per the claim: missing or rejected by the email check. -/
def emailInvalid (isEmail : String → Bool) (b : SignupBody) : Bool :=
  match b.email with
  | none => true
  | some e => ! isEmail e

/-- Password shorter than 6 characters (a missing password has none). -/
def passwordTooShort (b : SignupBody) : Bool :=
  match b.password with
  | none => true
  | some p => p.length < 6

/-- Invalid display name per the claim: missing, shorter than 3 or longer
than 20 characters, or containing a character outside letters, digits and
underscore. -/
def displayNameInvalid (b : SignupBody) : Bool :=
  match b.displayName with
  | none => true
  | some d => d.length < 3 || 20 < d.length || ! d.data.all isWordChar

/-- C4: a registration whose body has an invalid email, a too-short
password or an invalid display name answers 400 with a non-empty list of
field-level messages, and the user store is unchanged. -/
theorem C4_register (isEmail : String → Bool) (newUser : SignupBody → User)
    (users : List User) (b : SignupBody)
    (hbad : emailInvalid isEmail b = true ∨ passwordTooShort b = true ∨
      displayNameInvalid b = true) :
    (registerRoute isEmail newUser users b).1 = 400 ∧
    (registerRoute isEmail newUser users b).2.1 ≠ [] ∧
    (registerRoute isEmail newUser users b).2.2 = users := by
  have herr : signupValidationErrors isEmail b ≠ [] := by
    rcases hbad with hb | hb | hb
    · unfold emailInvalid at hb
      cases he : b.email with
      | none => simp [signupValidationErrors, he]
      | some e =>
        rw [he] at hb
        simp only [Bool.not_eq_true'] at hb
        simp [signupValidationErrors, he, hb]
    · unfold passwordTooShort at hb
      cases hp : b.password with
      | none => simp [signupValidationErrors, hp]
      | some p =>
        rw [hp] at hb
        simp only [decide_eq_true_eq] at hb
        simp [signupValidationErrors, hp, hb]
    · unfold displayNameInvalid at hb
      cases hd : b.displayName with
      | none => simp [signupValidationErrors, hd]
      | some d =>
        rw [hd] at hb
        simp only [Bool.or_eq_true, decide_eq_true_eq, Bool.not_eq_true'] at hb
        rcases hb with (hb | hb) | hb
        · simp [signupValidationErrors, hd, hb]
        · simp [signupValidationErrors, hd, hb]
        · by_cases hde : d = ""
          · subst hde
            simp [signupValidationErrors, hd]
          · have hcond : (decide ¬(d = "") && d.data.all isWordChar) = false := by
              simp [hb]
            simp only [signupValidationErrors, hd, hcond, ne_eq, List.append_eq_nil,
              if_false, Bool.false_eq_true, not_and]
            intro _ _ hc
            simp at hc
  unfold registerRoute
  rw [if_pos (by simpa using herr)]
  exact ⟨rfl, herr, rfl⟩

/-- C4 witness: a short display name with a forbidden character is rejected
with 400 and an unchanged user store. -/
theorem C4_register_witness :
    let isEmail : String → Bool := fun s => s.any (· = '@')
    let mk : SignupBody → User :=
      fun _ => ⟨9, "n@n.n", "hashed", "nn", false, "", "", [], [], [], [], true, 0, 0⟩
    (registerRoute isEmail mk [] ⟨some "x@y.z", some "longpass", some "b!"⟩).1 = 400 ∧
    (registerRoute isEmail mk [] ⟨some "x@y.z", some "longpass", some "b!"⟩).2.1 ≠ [] ∧
    (registerRoute isEmail mk [] ⟨some "x@y.z", some "longpass", some "b!"⟩).2.2 = [] := by
  intro isEmail mk
  exact C4_register isEmail mk [] ⟨some "x@y.z", some "longpass", some "b!"⟩
    (Or.inr (Or.inr (by decide)))

/-! ## Shared facts about the paginated, sorted listings -/

theorem mem_of_mem_paginate_sortLe {le : α → α → Bool} {page limit : Nat}
    {l : List α} {x : α} (h : x ∈ paginate page limit (sortLe le l)) : x ∈ l :=
  (sortLe_perm le l).subset ((paginate_sublist page limit (sortLe le l)).subset h)

theorem pairwise_paginate_sortLe (le : α → α → Bool)
    (htrans : ∀ a b c, le a b = true → le b c = true → le a c = true)
    (htot : ∀ a b, (le a b || le b a) = true) (page limit : Nat) (l : List α) :
    (paginate page limit (sortLe le l)).Pairwise (fun x y => le x y = true) :=
  List.Pairwise.sublist (paginate_sublist page limit (sortLe le l))
    (pairwise_sortLe le htrans htot l)

theorem limit_pos_of_ok {pageQ limitQ : Option String}
    (hok : paginationErrors pageQ limitQ = []) : 1 ≤ parseIntOr limitQ 10 := by
  cases hl : limitQ with
  | none => simp [parseIntOr]
  | some s =>
    have hs : isLimitStr s = true := by
      by_contra hns
      rw [Bool.not_eq_true] at hns
      rw [hl] at hok
      simp [paginationErrors, hns] at hok
    unfold isLimitStr at hs
    cases hn : strToNat? s with
    | none => rw [hn] at hs; simp at hs
    | some n =>
      rw [hn] at hs
      simp only [Bool.and_eq_true, decide_eq_true_eq] at hs
      have hrw : parseIntOr (some s) 10 = if n = 0 then 10 else n := by
        simp [parseIntOr, hn]
      rw [hrw]
      rcases hs with ⟨h1, _⟩
      split <;> omega

theorem mem_approvedSpots {db : List Spot} {s : Spot}
    (h : s ∈ approvedSpots db) : s.status = SpotStatus.approved := by
  have := (List.mem_filter.mp h).2
  simpa using this

/-! ## Claim C5: GET /api/spots pagination contract -/

/-- C5: a present page parameter that is not a positive integer, or a
present limit parameter that is not an integer in [1,100], yields 400 with
field-level messages; otherwise the route answers 200 with the
(page-1)*limit-skipped, limit-long window of the approved spots and
totalPages the ceiling of their count over the limit. -/
theorem C5_getAllSpots (db : List Spot) (pageQ limitQ : Option String) :
    (∀ s, pageQ = some s → isPositiveIntStr s = false →
      (getAllSpots db pageQ limitQ).status = 400 ∧
      (getAllSpots db pageQ limitQ).errors ≠ []) ∧
    (∀ s, limitQ = some s → isLimitStr s = false →
      (getAllSpots db pageQ limitQ).status = 400 ∧
      (getAllSpots db pageQ limitQ).errors ≠ []) ∧
    (paginationErrors pageQ limitQ = [] →
      (getAllSpots db pageQ limitQ).status = 200 ∧
      (getAllSpots db pageQ limitQ).spots
        = paginate (parseIntOr pageQ 1) (parseIntOr limitQ 10) (approvedSpots db) ∧
      (getAllSpots db pageQ limitQ).spots.length ≤ parseIntOr limitQ 10 ∧
      (∀ sp ∈ (getAllSpots db pageQ limitQ).spots, sp.status = SpotStatus.approved) ∧
      ((getAllSpots db pageQ limitQ).totalPages : ℤ)
        = ⌈((approvedSpots db).length : ℚ) / ((parseIntOr limitQ 10 : Nat) : ℚ)⌉) := by
  refine ⟨?_, ?_, ?_⟩
  · intro s hs hbad
    have herr : paginationErrors pageQ limitQ ≠ [] := by
      rw [hs]
      simp [paginationErrors, hbad]
    constructor <;> simp [getAllSpots, herr]
  · intro s hs hbad
    have herr : paginationErrors pageQ limitQ ≠ [] := by
      rw [hs]
      simp [paginationErrors, hbad]
    constructor <;> simp [getAllSpots, herr]
  · intro hok
    have hrun : getAllSpots db pageQ limitQ =
        ⟨200, [], paginate (parseIntOr pageQ 1) (parseIntOr limitQ 10) (approvedSpots db),
         jsCeilDiv (approvedSpots db).length (parseIntOr limitQ 10)⟩ := by
      simp [getAllSpots, hok]
    have hpos : 0 < parseIntOr limitQ 10 := limit_pos_of_ok hok
    refine ⟨by rw [hrun], by rw [hrun], ?_, ?_, ?_⟩
    · rw [hrun]
      exact paginate_length_le _ _ _
    · intro sp hsp
      rw [hrun] at hsp
      exact mem_approvedSpots ((paginate_sublist _ _ _).subset hsp)
    · rw [hrun]
      exact jsCeilDiv_eq_ceil _ _ hpos

/-- C5 witness: an invalid page string is rejected and the default
parameters list the single approved spot. -/
theorem C5_getAllSpots_witness :
    let spot : Spot :=
      ⟨"Falls", "Nice falls here", [1, 2], [], ["Nature"], "", "", 1, [],
       [], [], 0, SpotStatus.approved, 0, 5⟩
    ((getAllSpots [spot] (some "0") none).status = 400 ∧
     (getAllSpots [spot] (some "0") none).errors ≠ []) ∧
    ((getAllSpots [spot] none none).status = 200 ∧
     (getAllSpots [spot] none none).spots = paginate 1 10 (approvedSpots [spot]) ∧
     ((getAllSpots [spot] none none).totalPages : ℤ)
       = ⌈((approvedSpots [spot]).length : ℚ) / ((10 : Nat) : ℚ)⌉) := by
  intro spot
  refine ⟨(C5_getAllSpots [spot] (some "0") none).1 "0" rfl (by decide), ?_⟩
  have h := (C5_getAllSpots [spot] none none).2.2 rfl
  exact ⟨h.1, h.2.1, h.2.2.2.2⟩

/-! ## Claim C6: trending spots and trending tags -/

/-- C6: the trending listing contains only approved spots, is the
pagination window of the approved spots sorted by like count, comment
count and creation date (all descending); the trending-tags aggregation
returns each tag with its occurrence count over approved posts' tags,
sorted by count descending and truncated to the limit. -/
theorem C6_trending (db : List Spot) (pageQ limitQ : Option String)
    (posts : List Post) (limitN : Nat)
    (hok : paginationErrors pageQ limitQ = []) :
    (getTrendingSpots db pageQ limitQ).status = 200 ∧
    (∀ sp ∈ (getTrendingSpots db pageQ limitQ).spots,
      sp.status = SpotStatus.approved) ∧
    (getTrendingSpots db pageQ limitQ).spots
      = paginate (parseIntOr pageQ 1) (parseIntOr limitQ 10) (trendingSorted db) ∧
    (getTrendingSpots db pageQ limitQ).spots.Pairwise (fun a b =>
      b.likedBy.length < a.likedBy.length ∨
      (a.likedBy.length = b.likedBy.length ∧
        (b.comments.length < a.comments.length ∨
          (a.comments.length = b.comments.length ∧ b.createdAt ≤ a.createdAt)))) ∧
    (getTrendingSpots db pageQ limitQ).spots.length ≤ parseIntOr limitQ 10 ∧
    (∀ p ∈ trendingTags posts limitN, p.2 = (approvedPostTags posts).count p.1) ∧
    (trendingTags posts limitN).Pairwise (fun p q => q.2 ≤ p.2) ∧
    (trendingTags posts limitN).length ≤ limitN := by
  have hrun : getTrendingSpots db pageQ limitQ =
      ⟨200, [], paginate (parseIntOr pageQ 1) (parseIntOr limitQ 10) (trendingSorted db),
       jsCeilDiv (approvedSpots db).length (parseIntOr limitQ 10)⟩ := by
    simp [getTrendingSpots, hok]
  refine ⟨by rw [hrun], ?_, by rw [hrun], ?_, ?_, ?_, ?_, ?_⟩
  · intro sp hsp
    rw [hrun] at hsp
    exact mem_approvedSpots (mem_of_mem_paginate_sortLe hsp)
  · rw [hrun]
    refine List.Pairwise.imp ?_
      (pairwise_paginate_sortLe _ (desc3LE_trans _ _ _) (desc3LE_total _ _ _) _ _ _)
    intro a b hab
    have h := (desc3LE_iff (fun s : Spot => s.likedBy.length)
      (fun s => s.comments.length) (·.createdAt) a b).mp hab
    exact h
  · rw [hrun]
    exact paginate_length_le _ _ _
  · intro p hp
    have hp1 : p ∈ sortLe (desc3LE Prod.snd (fun _ => 0) (fun _ => 0))
        ((approvedPostTags posts).dedup.map
          (fun t => (t, (approvedPostTags posts).count t))) := by
      exact (List.take_sublist _ _).subset hp
    have hp2 := (sortLe_perm _ _).subset hp1
    obtain ⟨t, _, rfl⟩ := List.mem_map.mp hp2
    rfl
  · refine List.Pairwise.imp ?_
      (List.Pairwise.sublist (List.take_sublist _ _)
        (pairwise_sortLe _ (desc3LE_trans _ _ _) (desc3LE_total _ _ _) _))
    intro p q hpq
    have h := (desc3LE_iff (Prod.snd) (fun _ => 0) (fun _ => 0) p q).mp hpq
    omega
  · exact (List.length_take_le _ _).trans (le_refl _)

/-- C6 witness: concrete trending listings. -/
theorem C6_trending_witness :
    let spot : Spot :=
      ⟨"Falls", "Nice falls here", [1, 2], [], ["Nature"], "", "", 1, ["u1"],
       [], [], 0, SpotStatus.approved, 0, 5⟩
    let post : Post := ⟨["a", "b", "a"], [], SpotStatus.approved, 0⟩
    (getTrendingSpots [spot] none none).status = 200 ∧
    (getTrendingSpots [spot] none none).spots
      = paginate 1 10 (trendingSorted [spot]) ∧
    (∀ p ∈ trendingTags [post] 2, p.2 = (approvedPostTags [post]).count p.1) ∧
    (trendingTags [post] 2).length ≤ 2 := by
  intro spot post
  have h := C6_trending [spot] none none [post] 2 rfl
  exact ⟨h.1, h.2.2.1, h.2.2.2.2.2.1, h.2.2.2.2.2.2.2⟩

/-! ## Claim C1: personalized feed -/

/-- Requesting user of the C1 counterexample: follows nobody. -/
def cFeedUser : User :=
  ⟨1, "a@b.c", "pw", "alice", false, "", "", [], [], [], [], true, 0, 0⟩

/-- Approved spot submitted by the requesting user themself. -/
def cFeedSpot : Spot :=
  ⟨"Falls", "Nice falls here", [1, 2], [], ["Nature"], "", "", 1, [], [], [],
   0, SpotStatus.approved, 0, 0⟩

/-- C1 (counterexample): the feed of a user who follows nobody contains the
user's own approved spot, which was not submitted by a followed user — the
aggregation matches `[...followedUsers, user._id]`, not just the followed
users. -/
theorem C1_counterexample :
    (fetchFeed [cFeedSpot] [cFeedUser] 1 1 10).spots = [cFeedSpot] ∧
    cFeedSpot.submittedBy ∉ cFeedUser.following := by
  constructor
  · rfl
  · decide

/-- C1 (amended): for an authenticated user and limit ≥ 1, the feed
contains only approved spots submitted by followed users or by the user
themself, is the (page-1)*limit-skipped, limit-long window of those spots
sorted by interest score (distinct shared tags) descending then creation
date descending, and totalPages is the ceiling of the matching count over
the limit. -/
theorem C1_fetchFeed (db : List Spot) (users : List User) (userId : Nat)
    (page limit : Nat) (hl : 1 ≤ limit) (u : User)
    (hu : users.find? (fun v => v.id == userId) = some u) :
    (fetchFeed db users userId page limit).status = 200 ∧
    (∀ s ∈ (fetchFeed db users userId page limit).spots,
      s.status = SpotStatus.approved ∧
      (s.submittedBy ∈ u.following ∨ s.submittedBy = u.id)) ∧
    (fetchFeed db users userId page limit).spots
      = paginate page limit (feedSorted db u) ∧
    (fetchFeed db users userId page limit).spots.Pairwise (fun a b =>
      interestScore u.interests b < interestScore u.interests a ∨
      (interestScore u.interests a = interestScore u.interests b ∧
        b.createdAt ≤ a.createdAt)) ∧
    (fetchFeed db users userId page limit).spots.length ≤ limit ∧
    ((fetchFeed db users userId page limit).totalPages : ℤ)
      = ⌈((feedMatching db u).length : ℚ) / ((limit : Nat) : ℚ)⌉ := by
  have hrun : fetchFeed db users userId page limit =
      ⟨200, [], paginate page limit (feedSorted db u),
       jsCeilDiv (feedMatching db u).length limit⟩ := by
    simp [fetchFeed, hu]
  refine ⟨by rw [hrun], ?_, by rw [hrun], ?_, ?_, ?_⟩
  · intro s hs
    rw [hrun] at hs
    have hmem : s ∈ feedMatching db u := mem_of_mem_paginate_sortLe hs
    have hfil := List.mem_filter.mp hmem
    have hcond := hfil.2
    simp only [Bool.and_eq_true, beq_iff_eq] at hcond
    rcases hcond with ⟨hc, hst⟩
    refine ⟨hst, ?_⟩
    have hc2 : s.submittedBy ∈ u.following ++ [u.id] := by
      simpa using hc
    rcases List.mem_append.mp hc2 with h1 | h1
    · exact Or.inl h1
    · exact Or.inr (by simpa using h1)
  · rw [hrun]
    refine List.Pairwise.imp ?_
      (pairwise_paginate_sortLe _ (desc3LE_trans _ _ _) (desc3LE_total _ _ _) _ _ _)
    intro a b hab
    have h := (desc3LE_iff (interestScore u.interests) (·.createdAt)
      (fun _ => 0) a b).mp hab
    rcases h with h | ⟨h1, h2⟩
    · exact Or.inl h
    · refine Or.inr ⟨h1, ?_⟩
      rcases h2 with h2 | ⟨h2, _⟩
      · exact Nat.le_of_lt h2
      · exact Nat.le_of_eq h2.symm
  · rw [hrun]
    exact paginate_length_le _ _ _
  · rw [hrun]
    exact jsCeilDiv_eq_ceil _ _ hl

/-- C1 witness: a follower's feed on concrete data. -/
theorem C1_fetchFeed_witness :
    let follower : User :=
      ⟨2, "b@b.c", "pw", "bob", false, "", "", [], [1], ["Nature"], [], true, 0, 0⟩
    (1 ≤ 10) ∧
    (fetchFeed [cFeedSpot] [follower] 2 1 10).status = 200 ∧
    (fetchFeed [cFeedSpot] [follower] 2 1 10).spots
      = paginate 1 10 (feedSorted [cFeedSpot] follower) ∧
    ((fetchFeed [cFeedSpot] [follower] 2 1 10).totalPages : ℤ)
      = ⌈((feedMatching [cFeedSpot] follower).length : ℚ) / ((10 : Nat) : ℚ)⌉ := by
  intro follower
  have h := C1_fetchFeed [cFeedSpot] [follower] 2 1 10 (by decide) follower rfl
  exact ⟨by decide, h.1, h.2.2.1, h.2.2.2.2.2⟩

end Waydown
